import Mathlib

/-!
Shallow embedding of `strategy.py` (QQQ momentum strategy checker).

Numeric values are modelled as rationals (`ℚ`).  A pandas/NumPy float that can
be NaN is modelled as `Option ℚ`, with `none` playing the role of NaN; NumPy
comparison with a NaN operand yields `False`, which the `fgt`/`fge`/`fle`
helpers reproduce.  A cell of the data frame is `Option (Option ℚ)`: the outer
`none` models a missing column (accessing it raises `KeyError`), `some none`
models a present NaN value, `some (some q)` a real number.

`ewm(..., adjust=False)` with smoothing factor `α` is the seeded recurrence
`y[0] = x[0]`, `y[t] = (1-α)·y[t-1] + α·x[t]`.  `com = c` means `α = 1/(1+c)`
and `span = s` means `α = 2/(s+1)`.  Applied to a series whose only NaN is the
leading entry (the `diff()` of a clean series), pandas outputs NaN there and
seeds the recurrence at the first valid value, which is how `calculate_rsi`
below prepends `none` and seeds `ewmFrom` at the first delta.

The bar-series invariant of the data source gives `volume ≥ 0`, so a zero
cumulative volume forces a zero cumulative TP·volume sum and the float
quotient is NaN (0/0); `vwapGo` therefore returns `none` exactly when the
cumulative volume is zero.
-/

/-- A float that may be NaN: `none` is NaN. -/
abbrev Fl := Option ℚ

/-- A data-frame cell: `none` = missing column (KeyError on access),
`some none` = NaN value, `some (some q)` = the number `q`. -/
abbrev Cell := Option Fl

/-- NumPy `a > b`: `False` whenever either side is NaN. -/
def fgt : Fl → Fl → Bool
  | some a, some b => decide (b < a)
  | _, _ => false

/-- NumPy `a >= b` against a non-NaN threshold: `False` when `a` is NaN. -/
def fge : Fl → ℚ → Bool
  | some a, b => decide (b ≤ a)
  | none, _ => false

/-- NumPy `a <= b` against a non-NaN threshold: `False` when `a` is NaN. -/
def fle : Fl → ℚ → Bool
  | some a, b => decide (a ≤ b)
  | none, _ => false

/-- One row of the indicator-augmented data frame (`latest_row` in the code). -/
structure DataRow where
  close_qqq : Cell
  rsi : Cell
  ema : Cell
  vwap : Cell

/-- A Python exception escaping a function. -/
inductive PyError where
  | keyError : String → PyError
deriving DecidableEq

deriving instance DecidableEq for Except

/-- `check_entry_condition_latest`: the whole body sits in a
`try/except KeyError` that returns `False`, so any missing column gives
`false`; otherwise the three NaN-aware comparisons are conjoined. -/
def check_entry_condition_latest (data_row : DataRow) : Bool :=
  match data_row.rsi, data_row.close_qqq, data_row.ema, data_row.vwap with
  | some rv, some cv, some ev, some vv =>
      fgt rv (some 45) && fgt cv ev && fgt cv vv
  | _, _, _, _ => false

/-- `check_exit_condition_latest`.  `buy_price is None` is tested first and
returns `(False, None)`.  Reading `Close_QQQ` is not guarded, so a missing
column raises `KeyError` out of the function.  The Take Profit test precedes
the Stop Loss test; the trailing-stop parameter is accepted but never used
(the code only carries a comment where the trailing-stop logic would be). -/
def check_exit_condition_latest (data_row : DataRow) (buy_price : Option ℚ)
    (take_profit_percentage stop_loss_percentage trailing_stop_percentage : ℚ) :
    Except PyError (Bool × Option String) :=
  match buy_price with
  | none => .ok (false, none)
  | some bp =>
    match data_row.close_qqq with
    | none => .error (.keyError "Close_QQQ")
    | some current_price =>
      let take_profit_price := bp * (1 + take_profit_percentage / 100)
      if fge current_price take_profit_price then
        .ok (true, some "Take Profit")
      else
        let stop_loss_price := bp * (1 - stop_loss_percentage / 100)
        if fle current_price stop_loss_price then
          .ok (true, some "Stop Loss")
        else
          .ok (false, none)

/-- Default tunables of `check_exit_condition_latest`. -/
def TAKE_PROFIT_PCT : ℚ := 25 / 10

/-- Default stop-loss percentage. -/
def STOP_LOSS_PCT : ℚ := 5 / 10

/-- Default trailing-stop percentage. -/
def TRAILING_STOP_PCT : ℚ := 1

/-- `Series.diff()` without the leading NaN: pairwise deltas, length `n-1`. -/
def diffs : List ℚ → List ℚ
  | [] => []
  | [_] => []
  | a :: b :: rest => (b - a) :: diffs (b :: rest)

/-- `ewm(adjust=False)` recurrence continued from a previous mean `prev`. -/
def ewmRec (a : ℚ) : ℚ → List ℚ → List ℚ
  | _, [] => []
  | prev, x :: xs =>
    let y := (1 - a) * prev + a * x
    y :: ewmRec a y xs

/-- `ewm(adjust=False).mean()` of a clean series: seeded by its first value. -/
def ewmFrom (a : ℚ) : List ℚ → List ℚ
  | [] => []
  | x :: xs => x :: ewmRec a x xs

/-- `100 - 100/(1+rs)` with float division semantics for `rs = g/l`:
`l = 0, g ≠ 0` gives `rs = ±inf` hence RSI `= 100`; `l = 0, g = 0` gives
`rs = NaN` hence RSI NaN (`none`). -/
def rsiOfAvgs (g l : ℚ) : Fl :=
  if l = 0 then
    if g = 0 then none else some 100
  else
    some (100 - 100 / (1 + g / l))

/-- The per-bar `(avg_gain, avg_loss)` pairs of `calculate_rsi`, starting at
the second bar (the first has a NaN delta, which pandas `ewm` skips). -/
def rsiAvgs (closes : List ℚ) : List (ℚ × ℚ) :=
  let d := diffs closes
  let gain := d.map (fun x => max x 0)
  let loss := d.map (fun x => max (-x) 0)
  (ewmFrom (1 / 14) gain).zip (ewmFrom (1 / 14) loss)

/-- `calculate_rsi(data, period=14)`: Wilder-style RSI via
`ewm(com=13, adjust=False)`, i.e. `α = 1/14`.  The first output is NaN. -/
def calculate_rsi (closes : List ℚ) : List Fl :=
  match closes with
  | [] => []
  | _ :: _ => none :: (rsiAvgs closes).map (fun p => rsiOfAvgs p.1 p.2)

/-- The EMA column: `ewm(span=15, adjust=False).mean()` of the closes,
`α = 2/16 = 1/8`, seeded by the first close — defined from the first bar. -/
def emaCol (closes : List ℚ) : List ℚ :=
  ewmFrom (1 / 8) closes

/-- One OHLCV bar (only the fields the indicators read). -/
structure Bar where
  high : ℚ
  low : ℚ
  close : ℚ
  volume : ℚ

/-- Cumulative-VWAP recursion carrying `Cumulative_TP_Volume` and
`Cumulative_Volume`; a zero cumulative volume yields NaN (`none`). -/
def vwapGo (ctpv cvol : ℚ) : List Bar → List Fl
  | [] => []
  | b :: rest =>
    let tp := (b.high + b.low + b.close) / 3
    let ctpv2 := ctpv + tp * b.volume
    let cvol2 := cvol + b.volume
    (if cvol2 = 0 then none else some (ctpv2 / cvol2)) :: vwapGo ctpv2 cvol2 rest

/-- The VWAP column: cumulative from the start of the fetched window. -/
def vwapCol (bars : List Bar) : List Fl :=
  vwapGo 0 0 bars

/-- The indicator-augmented data frame: closes zipped with the three
indicator columns, each cell present (`some`), values possibly NaN. -/
def buildFrame (bars : List Bar) : List DataRow :=
  let closes := bars.map Bar.close
  ((closes.zip (calculate_rsi closes)).zip ((emaCol closes).zip (vwapCol bars))).map
    fun p => ⟨some (some p.1.1), some p.1.2, some (some p.2.1), some p.2.2⟩

/-- The exit rule exactly as the specification words it: fixed priority
TakeProfit, then StopLoss, then TrailingStop, first condition that holds. -/
def specExitPriority (close entry_price peak_price : ℚ) : Bool × Option String :=
  if entry_price * (1 + 25 / 1000) ≤ close then (true, some "Take Profit")
  else if close ≤ entry_price * (1 - 5 / 1000) then (true, some "Stop Loss")
  else if close ≤ peak_price * (1 - 1 / 100) then (true, some "Trailing Stop")
  else (false, none)

/-- The exit rule with the trailing stop removed: TakeProfit then StopLoss. -/
def specExitNoTrail (close entry_price : ℚ) : Bool × Option String :=
  if entry_price * (1 + 25 / 1000) ≤ close then (true, some "Take Profit")
  else if close ≤ entry_price * (1 - 5 / 1000) then (true, some "Stop Loss")
  else (false, none)

/-- A row whose only populated field is a real close price. -/
def rowOfClose (c : ℚ) : DataRow :=
  ⟨some (some c), some none, some none, some none⟩

/-- A row whose `RSI` column is missing entirely (access raises `KeyError`,
which the entry check catches, returning plain `False`). -/
def rowMissingRSI : DataRow :=
  ⟨some (some 100), none, some (some 90), some (some 90)⟩

/-- A fully populated row on which the entry conditions simply do not hold. -/
def rowNoSignal : DataRow :=
  ⟨some (some 100), some (some 40), some (some 90), some (some 90)⟩

/-- Characterization of the entry check: it returns `true` exactly when all
four cells hold real numbers and the three threshold comparisons hold. -/
lemma check_entry_true_iff (r : DataRow) :
    check_entry_condition_latest r = true ↔
      ∃ rv cv ev vv, r.rsi = some (some rv) ∧ r.close_qqq = some (some cv) ∧
        r.ema = some (some ev) ∧ r.vwap = some (some vv) ∧
        45 < rv ∧ ev < cv ∧ vv < cv := by
  obtain ⟨c, ri, e, v⟩ := r
  rcases ri with _ | (_ | ri) <;> rcases c with _ | (_ | c) <;>
    rcases e with _ | (_ | e) <;> rcases v with _ | (_ | v) <;>
      simp [check_entry_condition_latest, fgt, and_assoc]

/-- A NaN in any indicator cell forces the entry check to `false`. -/
lemma check_entry_undef_false (r : DataRow)
    (h : r.rsi = some none ∨ r.ema = some none ∨ r.vwap = some none) :
    check_entry_condition_latest r = false := by
  cases hb : check_entry_condition_latest r with
  | false => rfl
  | true =>
    obtain ⟨rv, cv, ev, vv, h1, _, h3, h4, _⟩ := (check_entry_true_iff r).1 hb
    rcases h with h | h | h <;> simp_all

/-- A missing column or NaN in any consulted cell forces the entry check to
`false`. -/
lemma check_entry_degenerate_false (r : DataRow)
    (h : r.rsi = none ∨ r.rsi = some none ∨ r.close_qqq = none ∨
         r.close_qqq = some none ∨ r.ema = none ∨ r.ema = some none ∨
         r.vwap = none ∨ r.vwap = some none) :
    check_entry_condition_latest r = false := by
  cases hb : check_entry_condition_latest r with
  | false => rfl
  | true =>
    obtain ⟨rv, cv, ev, vv, h1, h2, h3, h4, _⟩ := (check_entry_true_iff r).1 hb
    rcases h with h | h | h | h | h | h | h | h <;> simp_all

/-- C1: the entry check on the latest row triggers iff RSI > 45, close > EMA
and close > VWAP with all values real; an undefined (NaN) indicator yields
plain no-signal (`false`), not an error. -/
theorem c1_entry_trigger_iff (r : DataRow) :
    (check_entry_condition_latest r = true ↔
      ∃ rv cv ev vv, r.rsi = some (some rv) ∧ r.close_qqq = some (some cv) ∧
        r.ema = some (some ev) ∧ r.vwap = some (some vv) ∧
        45 < rv ∧ ev < cv ∧ vv < cv) ∧
    ((r.rsi = some none ∨ r.ema = some none ∨ r.vwap = some none) →
      check_entry_condition_latest r = false) :=
  ⟨check_entry_true_iff r, check_entry_undef_false r⟩

/-- C1 witness: a concrete row with RSI 50, close 10, EMA 5, VWAP 5
triggers. -/
theorem c1_witness :
    check_entry_condition_latest
      ⟨some (some 10), some (some 50), some (some 5), some (some 5)⟩ = true :=
  (c1_entry_trigger_iff ⟨some (some 10), some (some 50), some (some 5), some (some 5)⟩).1.mpr
    ⟨50, 10, 5, 5, rfl, rfl, rfl, rfl, by norm_num, by norm_num, by norm_num⟩

/-- C2 counterexample: at close 101 with entry price 100 and peak 200 the
spec's priority rule fires the trailing stop (101 ≤ 198, while neither
take-profit 102.5 nor stop-loss 99.5 is hit), but the code — which takes no
peak price and ignores its trailing-stop parameter — reports no exit. -/
theorem c2_counterexample :
    specExitPriority 101 100 200 = (true, some "Trailing Stop") ∧
    check_exit_condition_latest (rowOfClose 101) (some 100)
      TAKE_PROFIT_PCT STOP_LOSS_PCT TRAILING_STOP_PCT = .ok (false, none) := by
  constructor
  · norm_num [specExitPriority]
  · norm_num [check_exit_condition_latest, rowOfClose, fge, fle,
      TAKE_PROFIT_PCT, STOP_LOSS_PCT]

/-- C2 amended: for a real close price and a buy price, the exit check
follows the priority order TakeProfit then StopLoss and stops there: it
agrees with the spec rule with the trailing stop removed. -/
theorem c2_amended (c bp : ℚ) :
    check_exit_condition_latest (rowOfClose c) (some bp)
      TAKE_PROFIT_PCT STOP_LOSS_PCT TRAILING_STOP_PCT =
      .ok (specExitNoTrail c bp) := by
  have htp : TAKE_PROFIT_PCT / 100 = 25 / 1000 := by norm_num [TAKE_PROFIT_PCT]
  have hsl : STOP_LOSS_PCT / 100 = 5 / 1000 := by norm_num [STOP_LOSS_PCT]
  simp only [check_exit_condition_latest, rowOfClose, specExitNoTrail, fge, fle, htp, hsl]
  by_cases h1 : bp * (1 + 25 / 1000) ≤ c
  · simp [h1]
  · by_cases h2 : c ≤ bp * (1 - 5 / 1000) <;> simp [h1, h2]

/-- C4 counterexample: the exit check invoked while flat (`buy_price = None`)
returns the ordinary success value `(False, None)` — indistinguishable from
"no exit" — rather than a loud caller-facing failure. -/
theorem c4_counterexample :
    check_exit_condition_latest (rowOfClose 100) none
      TAKE_PROFIT_PCT STOP_LOSS_PCT TRAILING_STOP_PCT = .ok (false, none) := rfl

/-- C4 amended: for every row and every parameterisation, a `None` buy price
is silently answered with `(False, None)`; no error is raised. -/
theorem c4_amended (r : DataRow) (tp sl ts : ℚ) :
    check_exit_condition_latest r none tp sl ts = .ok (false, none) := rfl

/-- C5 counterexample: a row whose `RSI` column is missing produces the very
same bare `false` as an ordinary fully-populated no-signal row — the entry
check's only output channel is this Boolean, so no ComputationError (nor any
other distinguishable report) reaches the caller. -/
theorem c5_counterexample :
    check_entry_condition_latest rowMissingRSI = false ∧
    check_entry_condition_latest rowNoSignal = false :=
  ⟨rfl, rfl⟩

/-- C5 amended: on any row with a missing or NaN required cell the evaluator
fails closed — it returns `false` (no signal), never a trigger — but the
condition is not reported to the caller as a distinct error. -/
theorem c5_amended (r : DataRow)
    (h : r.rsi = none ∨ r.rsi = some none ∨ r.close_qqq = none ∨
         r.close_qqq = some none ∨ r.ema = none ∨ r.ema = some none ∨
         r.vwap = none ∨ r.vwap = some none) :
    check_entry_condition_latest r = false :=
  check_entry_degenerate_false r h

/-- C5 witness: the missing-RSI row fails closed. -/
theorem c5_witness : check_entry_condition_latest rowMissingRSI = false :=
  c5_amended rowMissingRSI (Or.inl rfl)

/-- C10: the exit check's result never depends on the trailing-stop
percentage parameter — the trailing-stop logic is absent from the code. -/
theorem c10_trailing_param_irrelevant (r : DataRow) (bp : Option ℚ)
    (tp sl ts1 ts2 : ℚ) :
    check_exit_condition_latest r bp tp sl ts1 =
      check_exit_condition_latest r bp tp sl ts2 := rfl

/-- The `adjust=False` EWMA recurrence keeps non-negative series
non-negative (for `0 ≤ a ≤ 1`). -/
lemma ewmRec_nonneg (a : ℚ) (ha0 : 0 ≤ a) (ha1 : a ≤ 1) :
    ∀ (xs : List ℚ) (prev : ℚ), 0 ≤ prev → (∀ x ∈ xs, 0 ≤ x) →
      ∀ y ∈ ewmRec a prev xs, 0 ≤ y := by
  intro xs
  induction xs with
  | nil => intro prev _ _ y hy; simp [ewmRec] at hy
  | cons x xs ih =>
    intro prev hp hxs y hy
    have hx : 0 ≤ x := hxs x (List.mem_cons_self _ _)
    have hy0 : 0 ≤ (1 - a) * prev + a * x := by
      have h1 := mul_nonneg (by linarith : (0:ℚ) ≤ 1 - a) hp
      have h2 := mul_nonneg ha0 hx
      linarith
    simp only [ewmRec, List.mem_cons] at hy
    rcases hy with rfl | hy
    · exact hy0
    · exact ih _ hy0 (fun z hz => hxs z (List.mem_cons_of_mem _ hz)) y hy

/-- Seeded EWMA of a non-negative series is non-negative. -/
lemma ewmFrom_nonneg (a : ℚ) (ha0 : 0 ≤ a) (ha1 : a ≤ 1) (xs : List ℚ)
    (hxs : ∀ x ∈ xs, 0 ≤ x) : ∀ y ∈ ewmFrom a xs, 0 ≤ y := by
  cases xs with
  | nil => intro y hy; simp [ewmFrom] at hy
  | cons x xs =>
    intro y hy
    have hx : 0 ≤ x := hxs x (List.mem_cons_self _ _)
    simp only [ewmFrom, List.mem_cons] at hy
    rcases hy with rfl | hy
    · exact hx
    · exact ewmRec_nonneg a ha0 ha1 xs x hx
        (fun z hz => hxs z (List.mem_cons_of_mem _ hz)) y hy

/-- Every smoothed `(avg_gain, avg_loss)` pair is componentwise
non-negative. -/
lemma rsiAvgs_nonneg (closes : List ℚ) (p : ℚ × ℚ) (hp : p ∈ rsiAvgs closes) :
    0 ≤ p.1 ∧ 0 ≤ p.2 := by
  obtain ⟨g, l⟩ := p
  simp only [rsiAvgs] at hp
  have h := List.of_mem_zip hp
  constructor
  · refine ewmFrom_nonneg (1 / 14) (by norm_num) (by norm_num) _ ?_ g h.1
    intro x hx
    obtain ⟨d, _, rfl⟩ := List.mem_map.1 hx
    exact le_max_right d 0
  · refine ewmFrom_nonneg (1 / 14) (by norm_num) (by norm_num) _ ?_ l h.2
    intro x hx
    obtain ⟨d, _, rfl⟩ := List.mem_map.1 hx
    exact le_max_right (-d) 0

/-- When defined, `rsiOfAvgs` of non-negative averages lies in `[0, 100]`. -/
lemma rsiOfAvgs_bounds (g l r : ℚ) (hg : 0 ≤ g) (hl : 0 ≤ l)
    (h : rsiOfAvgs g l = some r) : 0 ≤ r ∧ r ≤ 100 := by
  unfold rsiOfAvgs at h
  by_cases hl0 : l = 0
  · rw [if_pos hl0] at h
    by_cases hg0 : g = 0
    · rw [if_pos hg0] at h; cases h
    · rw [if_neg hg0] at h
      cases h
      norm_num
  · rw [if_neg hl0] at h
    cases h
    have hlpos : 0 < l := lt_of_le_of_ne hl (Ne.symm hl0)
    have hrs : 0 ≤ g / l := div_nonneg hg hlpos.le
    have h1 : (1:ℚ) ≤ 1 + g / l := by linarith
    have hq1 : 100 / (1 + g / l) ≤ 100 := div_le_self (by norm_num) h1
    have hq0 : 0 ≤ 100 / (1 + g / l) := div_nonneg (by norm_num) (by linarith)
    constructor <;> linarith

/-- C6: every defined value of the computed RSI series lies in `[0, 100]`. -/
theorem c6_rsi_in_range (closes : List ℚ) (r : ℚ)
    (h : some r ∈ calculate_rsi closes) : 0 ≤ r ∧ r ≤ 100 := by
  cases closes with
  | nil => simp [calculate_rsi] at h
  | cons c cs =>
    simp only [calculate_rsi, List.mem_cons] at h
    rcases h with h | h
    · cases h
    · obtain ⟨p, hp, hpr⟩ := List.mem_map.1 h
      obtain ⟨hg, hl⟩ := rsiAvgs_nonneg _ p hp
      exact rsiOfAvgs_bounds p.1 p.2 r hg hl hpr

/-- C6 witness: on closes `[1, 2]` the defined RSI value is `100 ∈ [0,100]`. -/
theorem c6_witness : (0:ℚ) ≤ 100 ∧ (100:ℚ) ≤ 100 :=
  c6_rsi_in_range [1, 2] 100
    (by norm_num [calculate_rsi, rsiAvgs, diffs, ewmFrom, rsiOfAvgs])

/-- C7: at any bar whose smoothed averages are computed, a zero average loss
with positive average gain gives RSI exactly 100, and a zero average loss
with zero average gain (flat market) gives an undefined (NaN) RSI — in both
cases a value is produced, not an error. -/
theorem c7_rsi_degenerate (closes : List ℚ) (i : ℕ) (g l : ℚ)
    (h : (rsiAvgs closes)[i]? = some (g, l)) :
    (l = 0 → 0 < g → (calculate_rsi closes)[i + 1]? = some (some 100)) ∧
    (l = 0 → g = 0 → (calculate_rsi closes)[i + 1]? = some none) := by
  cases closes with
  | nil =>
    have : rsiAvgs ([] : List ℚ) = [] := rfl
    rw [this] at h
    simp at h
  | cons c cs =>
    have hcalc : calculate_rsi (c :: cs) =
        none :: (rsiAvgs (c :: cs)).map (fun p => rsiOfAvgs p.1 p.2) := rfl
    rw [hcalc]
    simp only [List.getElem?_cons_succ, List.getElem?_map, h, Option.map_some]
    constructor
    · intro hl hg
      simp [rsiOfAvgs, hl, hg.ne']
    · intro hl hg
      simp [rsiOfAvgs, hl, hg]

/-- C7 witness: closes `[1, 2]` give `(avg_gain, avg_loss) = (1, 0)` and RSI
100 at the second bar; flat closes `[5, 5]` give `(0, 0)` and an undefined
RSI there. -/
theorem c7_witness :
    (calculate_rsi [1, 2])[1]? = some (some 100) ∧
    (calculate_rsi [5, 5])[1]? = some none :=
  ⟨(c7_rsi_degenerate [1, 2] 0 1 0
      (by norm_num [rsiAvgs, diffs, ewmFrom])).1 rfl (by norm_num),
   (c7_rsi_degenerate [5, 5] 0 0 0
      (by norm_num [rsiAvgs, diffs, ewmFrom])).2 rfl rfl⟩

/-- C8: whenever a close simultaneously reaches the take-profit and
stop-loss thresholds, the exit check reports exactly `Take Profit` (it is
tested first, and a single `(flag, reason)` pair is the entire report). -/
theorem c8_tp_priority (c bp : ℚ)
    (h1 : bp * (1 + 25 / 1000) ≤ c) (h2 : c ≤ bp * (1 - 5 / 1000)) :
    check_exit_condition_latest (rowOfClose c) (some bp)
      TAKE_PROFIT_PCT STOP_LOSS_PCT TRAILING_STOP_PCT =
      .ok (true, some "Take Profit") := by
  have htp : bp * (1 + TAKE_PROFIT_PCT / 100) = bp * (1 + 25 / 1000) := by
    norm_num [TAKE_PROFIT_PCT]
  simp [check_exit_condition_latest, rowOfClose, fge, htp, h1]

/-- C8 witness: with buy price 0 and close 0 both thresholds hold and
`Take Profit` is reported. -/
theorem c8_witness :
    check_exit_condition_latest (rowOfClose 0) (some 0)
      TAKE_PROFIT_PCT STOP_LOSS_PCT TRAILING_STOP_PCT =
      .ok (true, some "Take Profit") :=
  c8_tp_priority 0 0 (by norm_num) (by norm_num)

/-- The deltas list is one shorter than the input. -/
lemma diffs_length : ∀ l : List ℚ, (diffs l).length = l.length - 1
  | [] => rfl
  | [_] => rfl
  | a :: b :: rest => by
    have ih := diffs_length (b :: rest)
    simp only [diffs, List.length_cons] at ih ⊢
    omega

/-- The EWMA recurrence preserves length. -/
lemma ewmRec_length (a : ℚ) : ∀ (prev : ℚ) (xs : List ℚ),
    (ewmRec a prev xs).length = xs.length
  | _, [] => rfl
  | prev, x :: xs => by
    simp only [ewmRec, List.length_cons, ewmRec_length a _ xs]

/-- The seeded EWMA preserves length. -/
lemma ewmFrom_length (a : ℚ) (xs : List ℚ) :
    (ewmFrom a xs).length = xs.length := by
  cases xs with
  | nil => rfl
  | cons x xs => simp [ewmFrom, ewmRec_length]

/-- One average pair per delta. -/
lemma rsiAvgs_length (closes : List ℚ) :
    (rsiAvgs closes).length = closes.length - 1 := by
  simp [rsiAvgs, ewmFrom_length, diffs_length]

/-- The RSI column has one value per bar. -/
lemma calculate_rsi_length (closes : List ℚ) :
    (calculate_rsi closes).length = closes.length := by
  cases closes with
  | nil => rfl
  | cons c cs =>
    simp only [calculate_rsi, List.length_cons, List.length_map, rsiAvgs_length]
    simp

/-- The EMA column has one value per bar. -/
lemma emaCol_length (closes : List ℚ) :
    (emaCol closes).length = closes.length := by
  simp [emaCol, ewmFrom_length]

/-- The VWAP recursion yields one value per bar. -/
lemma vwapGo_length (bars : List Bar) : ∀ ctpv cvol : ℚ,
    (vwapGo ctpv cvol bars).length = bars.length := by
  induction bars with
  | nil => intro ctpv cvol; rfl
  | cons b bs ih => intro ctpv cvol; simp only [vwapGo, List.length_cons, ih]

/-- The data frame has one row per bar. -/
lemma buildFrame_length (bars : List Bar) :
    (buildFrame bars).length = bars.length := by
  simp [buildFrame, List.length_zip, calculate_rsi_length, emaCol_length,
    vwapGo_length, vwapCol, List.length_map]

/-- The first 16 closes 100, 101, …, 115: strictly rising. -/
def cs16 : List ℚ :=
  [100, 101, 102, 103, 104, 105, 106, 107, 108, 109, 110, 111, 112, 113, 114, 115]

/-- C3 counterexample: on a 16-bar strictly rising series the second RSI
value (index 1) is already defined (it equals 100) and the very first EMA
value is defined (it equals the first close) — contradicting the claim that
the first 14 values of each are undefined. -/
theorem c3_counterexample :
    cs16.length = 16 ∧
    (calculate_rsi cs16)[1]? = some (some 100) ∧
    (emaCol cs16)[0]? = some 100 := by
  refine ⟨by norm_num [cs16], ?_, by norm_num [cs16, emaCol, ewmFrom]⟩
  norm_num [cs16, calculate_rsi, rsiAvgs, diffs, ewmFrom, ewmRec, rsiOfAvgs]

/-- C3 amended: only the very first RSI value (index 0, where the price
delta does not exist) is undefined in general — later RSI values may already
be defined; the EMA value is defined at every bar starting from the first
(the recurrence is seeded by the first close); and no entry signal fires on
a row where a required indicator is undefined (NaN). -/
theorem c3_amended (c : ℚ) (cs : List ℚ) (r : DataRow) :
    (calculate_rsi (c :: cs))[0]? = some none ∧
    (∀ i, i < (c :: cs).length → ((emaCol (c :: cs))[i]?).isSome = true) ∧
    ((r.rsi = some none ∨ r.ema = some none ∨ r.vwap = some none) →
      check_entry_condition_latest r = false) := by
  refine ⟨by simp [calculate_rsi], ?_, check_entry_undef_false r⟩
  intro i hi
  rw [← emaCol_length (c :: cs)] at hi
  rw [List.getElem?_eq_getElem hi]
  rfl

/-- C3 amended witness: on closes `[100, 101]` the first RSI value is NaN,
and a concrete row with NaN RSI and VWAP yields no signal. -/
theorem c3_witness :
    (calculate_rsi [100, 101])[0]? = some none ∧
    check_entry_condition_latest
      ⟨some (some 100), some none, some (some 100), some none⟩ = false :=
  ⟨(c3_amended 100 [101]
      ⟨some (some 100), some none, some (some 100), some none⟩).1,
   (c3_amended 100 [101]
      ⟨some (some 100), some none, some (some 100), some none⟩).2.2 (Or.inl rfl)⟩

/-- With all volumes zero the cumulative volume stays zero and every VWAP
quotient is the NaN `0/0`, i.e. `none`. -/
lemma vwapGo_zero_volume (bars : List Bar) :
    ∀ ctpv : ℚ, (∀ b ∈ bars, b.volume = 0) →
      vwapGo ctpv 0 bars = List.replicate bars.length none := by
  induction bars with
  | nil => intro ctpv _; rfl
  | cons b bs ih =>
    intro ctpv h
    have hb : b.volume = 0 := h b (List.mem_cons_self _ _)
    have hbs : ∀ x ∈ bs, x.volume = 0 := fun x hx => h x (List.mem_cons_of_mem _ hx)
    simp [vwapGo, hb, List.replicate_succ, ih ctpv hbs]

/-- Every frame row's VWAP cell wraps a value of the VWAP column. -/
lemma buildFrame_vwap_mem (bars : List Bar) (r : DataRow)
    (hr : r ∈ buildFrame bars) : ∃ w ∈ vwapCol bars, r.vwap = some w := by
  simp only [buildFrame] at hr
  obtain ⟨p, hp, rfl⟩ := List.mem_map.1 hr
  obtain ⟨⟨c, ri⟩, e, w⟩ := p
  have h1 := List.of_mem_zip hp
  have h2 := List.of_mem_zip h1.2
  exact ⟨w, h2.2, rfl⟩

/-- Twenty flat bars with close 100 and zero volume. -/
def flatBars : List Bar := List.replicate 20 ⟨100, 100, 100, 0⟩

/-- C9: on 20 flat bars with zero volume the whole VWAP column is undefined
(each quotient divides by a zero cumulative volume), and the entry check on
the latest frame row evaluates to plain `false` (no signal) — the check is a
total function, so no error occurs. -/
theorem c9_zero_volume_no_signal :
    vwapCol flatBars = List.replicate 20 none ∧
    ((buildFrame flatBars).getLast?).map check_entry_condition_latest =
      some false := by
  have hvol : ∀ b ∈ flatBars, b.volume = 0 := by
    intro b hb
    rw [List.eq_of_mem_replicate hb]
  have hlen20 : flatBars.length = 20 := by simp [flatBars]
  have hv : vwapCol flatBars = List.replicate 20 none := by
    rw [vwapCol, vwapGo_zero_volume flatBars 0 hvol, hlen20]
  refine ⟨hv, ?_⟩
  have hlen : (buildFrame flatBars).length = 20 := by
    rw [buildFrame_length, hlen20]
  have hne : buildFrame flatBars ≠ [] := by
    intro h
    rw [h] at hlen
    simp at hlen
  rw [List.getLast?_eq_getLast_of_ne_nil hne]
  have hmem : (buildFrame flatBars).getLast hne ∈ buildFrame flatBars :=
    List.getLast_mem hne
  obtain ⟨w, hw, hrv⟩ := buildFrame_vwap_mem flatBars _ hmem
  rw [hv] at hw
  rw [List.eq_of_mem_replicate hw] at hrv
  simp [check_entry_undef_false _ (Or.inr (Or.inr hrv))]
